import Mathlib

/-!
Shallow embedding of the availability engine of the hiko-dental repository
(`src/server/lib/slots.js`, `src/server/lib/slots.postgres.js`, and the
booking endpoint of the Express server), together with proofs settling the
frozen claims about its specification.

Modelling conventions, justified by the source:
* Instants are `Int` milliseconds (JavaScript `Date.getTime()`), calendar
  dates are `Int` day indices; `dayStart d = d * 86400000`.  The reference
  implementation pins the clinic timezone to UTC+9 (JST), which has no DST,
  so local days are uniformly 86400000 ms long and `setDate`/`setHours`
  arithmetic is exact in this model.  `new Date("YYYY-MM-DD")` parses to
  UTC midnight = 09:00 local of the same local calendar day; every use in
  the source either normalises the time-of-day with `setHours` or compares
  against an end-of-day instant, so modelling the parsed target date as
  local midnight `dayStart D` is extensionally faithful.
* Stored datetimes are zero-padded `"YYYY-MM-DD HH:MM:SS"` strings whose
  lexicographic order coincides with chronological order, so SQL / JS
  string comparisons on them are modelled as `Int` comparisons.
* Times of day (`"HH:MM"` strings) are minutes from midnight.
* JavaScript `parseInt(x) || d` over a settings value is modelled by
  `parseIntD : Option Int → Int → Int` (`none` = absent or non-numeric,
  `some 0` is falsy and also falls back).
* Timestamps reaching the engine are modelled already parsed; the
  `isNaN(...)` branches are unreachable in the model.
* The generation `while` loops are modelled with explicit fuel; a call
  site supplies fuel sufficient for every positive step width (with a
  non-positive step the JavaScript loop would not terminate at all).
-/

namespace Hiko

def msPerMinute : Int := 60000

def msPerDay : Int := 86400000

/-- Local midnight of calendar day `d`. -/
def dayStart (d : Int) : Int := d * msPerDay

/-- Local calendar day of an instant (floor division; `/` on `Int` is
Euclidean division, which floors for a positive divisor). -/
def dayOf (t : Int) : Int := t / msPerDay

/-- JavaScript `getDay()` on the uniform-day model: day 0 (1970-01-01) was a
Thursday, so weekday of day `d` is `(d + 4) mod 7` (0 = Sunday). -/
def dayOfWeek (d : Int) : Int := (d + 4) % 7

/-- Minutes-of-day of an instant, as produced by `formatTime` (`"HH:MM"`,
seconds truncated; all generated instants lie on whole minutes). -/
def timeMinOf (t : Int) : Int := (t % msPerDay) / msPerMinute

/-- `parseInt(v) || d`: absent / non-numeric (`none`) and the falsy `0`
fall back to the default; any other parsed integer is kept as is. -/
def parseIntD (v : Option Int) (d : Int) : Int :=
  match v with
  | none => d
  | some n => if n = 0 then d else n

/-- The settings map handed to the engine (`getSettings()`); each field is
`none` when the key is absent or non-numeric.  `lunch_start`/`lunch_end`
are minutes of day (the Postgres variant defaults them to 12:00/13:00 via
string truthiness, modelled by `Option.getD`). -/
structure Settings where
  booking_cutoff_days : Option Int := none
  booking_cutoff_hours : Option Int := none
  booking_max_days_ahead : Option Int := none
  slot_duration_minutes : Option Int := none
  default_slot_capacity : Option Int := none
  lunch_start : Option Int := none
  lunch_end : Option Int := none
deriving DecidableEq, Repr

/-- A row of `holidays`. -/
structure Holiday where
  date : Int
  name : Option String := none
deriving DecidableEq, Repr

/-- `schedule_exceptions.exception_type` (the source's `partial_closed`
kind is spelled `part_closed` here). -/
inductive ExcType where
  | closed
  | part_closed
  | modified_hours
  | special_open
deriving DecidableEq, Repr

/-- A row of `schedule_exceptions`; time fields are minutes of day,
`none` = SQL NULL. -/
structure ScheduleException where
  start_date : Int
  end_date : Int
  exception_type : ExcType
  reason : Option String := none
  morning_open : Option Int := none
  morning_close : Option Int := none
  afternoon_open : Option Int := none
  afternoon_close : Option Int := none
  start_time : Option Int := none
  end_time : Option Int := none
deriving DecidableEq, Repr

/-- A row of `business_hours` (morning/afternoon pairs plus the legacy
single `open_time`/`close_time` pair), minutes of day. -/
structure BusinessHours where
  day_of_week : Int
  is_closed : Bool := false
  morning_open : Option Int := none
  morning_close : Option Int := none
  afternoon_open : Option Int := none
  afternoon_close : Option Int := none
  open_time : Option Int := none
  close_time : Option Int := none
deriving DecidableEq, Repr

/-- A row of `services`. -/
structure Service where
  id : Int
  duration_minutes : Int
  is_active : Bool := true
deriving DecidableEq, Repr

/-- A row of `staff`. -/
structure Staff where
  id : Int
  is_active : Bool := true
deriving DecidableEq, Repr

/-- `appointments.status`. -/
inductive AptStatus where
  | confirmed
  | cancelled
  | completed
deriving DecidableEq, Repr

/-- A row of `appointments` (only the columns the engine reads). -/
structure Appointment where
  service_id : Int
  staff_id : Option Int := none
  start_at : Int
  end_at : Int
  status : AptStatus := .confirmed
deriving DecidableEq, Repr

/-- A row of `slot_capacities` (after migration 009: `day_of_week`
nullable, optional `specific_date`; `time_slot` is minutes of day). -/
structure SlotCapacityRow where
  day_of_week : Option Int := none
  time_slot : Int
  capacity : Int
  specific_date : Option Int := none
deriving DecidableEq, Repr

/-- The relational store visible to the engine. -/
structure DB where
  holidays : List Holiday := []
  scheduleExceptions : List ScheduleException := []
  businessHours : List BusinessHours := []
  services : List Service := []
  staffTable : List Staff := []
  appointments : List Appointment := []
  slotCapacities : List SlotCapacityRow := []
deriving DecidableEq, Repr

/-- `SELECT * FROM holidays WHERE date = ?` (`.get`: first row). -/
def findHoliday (db : DB) (d : Int) : Option Holiday :=
  db.holidays.find? (fun h => decide (h.date = d))

/-- `SELECT * FROM business_hours WHERE day_of_week = ?`. -/
def findBusinessHours (db : DB) (w : Int) : Option BusinessHours :=
  db.businessHours.find? (fun b => decide (b.day_of_week = w))

/-- `SELECT ... FROM services WHERE id = ? AND is_active = 1`. -/
def findService (db : DB) (sid : Int) : Option Service :=
  db.services.find? (fun s => decide (s.id = sid ∧ s.is_active = true))

/-- `SELECT * FROM staff WHERE id = ? AND is_active = 1`. -/
def findStaff (db : DB) (sid : Int) : Option Staff :=
  db.staffTable.find? (fun s => decide (s.id = sid ∧ s.is_active = true))

/-- `maxDate`: `new Date()` pushed `maxDaysAhead` days forward, then
`setHours(23,59,59,999)` — end of that local day. -/
def maxDateOf (now maxDaysAhead : Int) : Int :=
  dayStart (dayOf now + maxDaysAhead) + 86399999

/-- `cutoffDate`: copy of the target instant, `setDate(-cutoffDays)`, then
`setHours(23-cutoffHours, 59, 59, 999)`.  Out-of-range hours normalise
exactly as JavaScript does. -/
def cutoffDateOf (t cutoffDays cutoffHours : Int) : Int :=
  dayStart (dayOf t - cutoffDays) + (23 - cutoffHours) * 3600000 + 3599999

/-- Staff clause of the conflict SQL: applied only when a staff id was
given; then `staff_id = ? OR staff_id IS NULL`. -/
def staffClause (staffId : Option Int) (a : Appointment) : Prop :=
  match staffId with
  | some sid => a.staff_id = some sid ∨ a.staff_id = none
  | none => True

instance (staffId : Option Int) (a : Appointment) : Decidable (staffClause staffId a) :=
  match staffId with
  | some _ => inferInstanceAs (Decidable (_ ∨ _))
  | none => inferInstanceAs (Decidable True)

/-- `SELECT * FROM appointments WHERE status='confirmed' AND start_at < endAt
AND end_at > startAt [AND (staff_id = ? OR staff_id IS NULL)]` — truthy iff
a row exists. -/
def hasConflictB (db : DB) (startAt endAt : Int) (staffId : Option Int) : Bool :=
  db.appointments.any (fun a =>
    decide (a.status = .confirmed ∧ a.start_at < endAt ∧ startAt < a.end_at ∧
      staffClause staffId a))

/-- The errors `validateBooking` can report (one constructor per return
site of the source; the holiday message there is a fixed generic string,
so `holidayClosed` carries no reason). -/
inductive BookingError where
  | invalidInterval
  | beyondHorizon (maxDaysAhead : Int)
  | cutoffClosed
  | pastDateTime
  | holidayClosed
  | dayClosed
  | invalidService
  | invalidStaff
  | conflict
deriving DecidableEq, Repr

/-- Result record `{valid, error}` of `validateBooking`. -/
structure VResult where
  valid : Bool
  error : Option BookingError
deriving DecidableEq, Repr

/-- `validateBooking(db, startAt, endAt, serviceId, staffId, settings)` of
`src/server/lib/slots.js` (the Postgres variant is check-for-check
identical).  The check order is exactly the source's: interval, horizon,
cutoff, past, holiday, weekday business hours, service, staff, conflict.
Note that no schedule-exception table and no open/close period of the day
is ever consulted. -/
def validateBooking (db : DB) (now startAt endAt : Int) (serviceId : Int)
    (staffId : Option Int) (st : Settings) : VResult :=
  if endAt ≤ startAt then ⟨false, some .invalidInterval⟩
  else
    let cutoffDays := parseIntD st.booking_cutoff_days 2
    let cutoffHours := parseIntD st.booking_cutoff_hours 3
    let maxDaysAhead := parseIntD st.booking_max_days_ahead 60
    if maxDateOf now maxDaysAhead < startAt then
      ⟨false, some (.beyondHorizon maxDaysAhead)⟩
    else if cutoffDateOf startAt cutoffDays cutoffHours < now then
      ⟨false, some .cutoffClosed⟩
    else if startAt ≤ now then ⟨false, some .pastDateTime⟩
    else if (findHoliday db (dayOf startAt)).isSome then
      ⟨false, some .holidayClosed⟩
    else
      match findBusinessHours db (dayOfWeek (dayOf startAt)) with
      | none => ⟨false, some .dayClosed⟩
      | some bh =>
        if bh.is_closed then ⟨false, some .dayClosed⟩
        else if (findService db serviceId).isNone then
          ⟨false, some .invalidService⟩
        else
          match staffId with
          | some sid =>
            if (findStaff db sid).isNone then ⟨false, some .invalidStaff⟩
            else if hasConflictB db startAt endAt staffId then
              ⟨false, some .conflict⟩
            else ⟨true, none⟩
          | none =>
            if hasConflictB db startAt endAt staffId then
              ⟨false, some .conflict⟩
            else ⟨true, none⟩

/-- The errors the slot generators can report (one constructor per early
return of the source; payloads are the data interpolated into the
message). -/
inductive SlotsError where
  | beyondHorizon (maxDaysAhead : Int)
  | cutoffClosed (cutoffDays cutoffHours : Int)
  | holidayClosed (name : Option String)
  | exceptionClosed (reason : Option String)
  | dayClosed
  | invalidService
deriving DecidableEq, Repr

/-- A slot emitted by the SQLite generator: `{start, end, startAt, endAt,
available: true}` (times of day in minutes, instants in ms). -/
structure Slot where
  startAt : Int
  endAt : Int
  startMin : Int
  endMin : Int
  available : Bool
deriving DecidableEq, Repr

/-- `{slots, error}` of the SQLite generator. -/
structure SlotsResult where
  error : Option SlotsError
  slots : List Slot
deriving DecidableEq, Repr

/-- Exception precedence rank of the `ORDER BY CASE exception_type ... END`
clause. -/
def excRank : ExcType → Int
  | .closed => 1
  | .part_closed => 2
  | .modified_hours => 3
  | .special_open => 4

/-- `SELECT * FROM schedule_exceptions WHERE ? BETWEEN start_date AND
end_date ORDER BY CASE ... END LIMIT 1`: some matching row of minimal
precedence rank (ties broken by list position, as the ORDER BY leaves
them unspecified). -/
def pickException (exs : List ScheduleException) (d : Int) : Option ScheduleException :=
  let ms := exs.filter (fun e => decide (e.start_date ≤ d ∧ d ≤ e.end_date))
  match ms.filter (fun e => decide (e.exception_type = .closed)) with
  | e :: _ => some e
  | [] =>
    match ms.filter (fun e => decide (e.exception_type = .part_closed)) with
    | e :: _ => some e
    | [] =>
      match ms.filter (fun e => decide (e.exception_type = .modified_hours)) with
      | e :: _ => some e
      | [] =>
        match ms.filter (fun e => decide (e.exception_type = .special_open)) with
        | e :: _ => some e
        | [] => none

/-- `special_open` override: spread of the weekday row with `is_closed: 0`
and each pair field `exception.x || businessHours?.x` (the legacy pair is
carried over unchanged from the spread). -/
def overrideSpecial (bh : Option BusinessHours) (e : ScheduleException) : BusinessHours :=
  { day_of_week := (bh.map (fun b => b.day_of_week)).getD 0
    is_closed := false
    morning_open := e.morning_open.orElse (fun _ => bh.bind (fun b => b.morning_open))
    morning_close := e.morning_close.orElse (fun _ => bh.bind (fun b => b.morning_close))
    afternoon_open := e.afternoon_open.orElse (fun _ => bh.bind (fun b => b.afternoon_open))
    afternoon_close := e.afternoon_close.orElse (fun _ => bh.bind (fun b => b.afternoon_close))
    open_time := bh.bind (fun b => b.open_time)
    close_time := bh.bind (fun b => b.close_time) }

/-- `modified_hours` override: spread with `is_closed: 0` and the pair
fields taken from the exception unconditionally. -/
def overrideModified (bh : Option BusinessHours) (e : ScheduleException) : BusinessHours :=
  { day_of_week := (bh.map (fun b => b.day_of_week)).getD 0
    is_closed := false
    morning_open := e.morning_open
    morning_close := e.morning_close
    afternoon_open := e.afternoon_open
    afternoon_close := e.afternoon_close
    open_time := bh.bind (fun b => b.open_time)
    close_time := bh.bind (fun b => b.close_time) }

/-- The `timePeriods` array: morning pair, afternoon pair, and the legacy
single pair only when neither of the first two is configured. -/
def periodsOf (bh : BusinessHours) : List (Int × Int) :=
  let tp :=
    (match bh.morning_open, bh.morning_close with
     | some o, some c => [(o, c)]
     | _, _ => []) ++
    (match bh.afternoon_open, bh.afternoon_close with
     | some o, some c => [(o, c)]
     | _, _ => [])
  if tp.isEmpty then
    match bh.open_time, bh.close_time with
    | some o, some c => [(o, c)]
    | _, _ => []
  else tp

/-- The effective business-hours record for day `D` after applying the
picked schedule exception (`special_open` / `modified_hours` overrides;
`closed` is handled before this point and `part_closed` leaves the row
unchanged). -/
def bhEffective (db : DB) (D : Int) (exc : Option ScheduleException) : Option BusinessHours :=
  let bh0 := findBusinessHours db (dayOfWeek D)
  match exc with
  | some e =>
    match e.exception_type with
    | .special_open => some (overrideSpecial bh0 e)
    | .modified_hours => some (overrideModified bh0 e)
    | _ => bh0
  | none => bh0

/-- The open periods of day `D` under a given picked exception (empty when
the day resolves closed). -/
def periodsUnder (db : DB) (D : Int) (exc : Option ScheduleException) : List (Int × Int) :=
  match bhEffective db D exc with
  | none => []
  | some bh => if bh.is_closed then [] else periodsOf bh

/-- The effective open periods of day `D` (empty when the day resolves
closed), for stating properties of the generator. -/
def effectivePeriods (db : DB) (D : Int) : List (Int × Int) :=
  periodsUnder db D (pickException db.scheduleExceptions D)

/-- `SELECT start_at, end_at, staff_id FROM appointments WHERE
DATE(start_at) = ? AND status = 'confirmed' [AND (staff_id = ? OR
staff_id IS NULL)]`. -/
def appointmentsOn (db : DB) (d : Int) (staffId : Option Int) : List Appointment :=
  db.appointments.filter (fun a =>
    decide (dayOf a.start_at = d ∧ a.status = .confirmed ∧ staffClause staffId a))

/-- In-loop overlap test against one fetched appointment: skip when a
staff preference and the appointment's staff are both set and differ,
else open-interval overlap `slotStart < apt.end_at ∧ slotEnd > apt.start_at`. -/
def overlapB (staffId : Option Int) (s e : Int) (a : Appointment) : Bool :=
  (match staffId, a.staff_id with
   | some sid, some aid => decide (aid = sid)
   | _, _ => true) &&
  decide (s < a.end_at) && decide (a.start_at < e)

/-- Fuel that dominates the iteration count of the generation loop for any
positive step width (with a non-positive step the JavaScript loop would
never terminate; the model then stops after this fuel). -/
def genFuel (openT closeT stepMs : Int) : Nat :=
  (closeT - openT).toNat / stepMs.toNat + 2

/-- The SQLite generation loop over one open period: while
`currentTime < closeTime`, break when `slotEnd > closeTime`, emit when not
booked, not inside the `partial_closed` window, and strictly after now;
advance by the slot increment. -/
def genLoopS (fuel : Nat) (cur closeT durMs stepMs : Int)
    (apts : List Appointment) (staffId : Option Int)
    (pcWin : Option (Int × Int)) (now : Int) : List Slot :=
  match fuel with
  | 0 => []
  | fuel + 1 =>
    if cur < closeT then
      let slotEnd := cur + durMs
      if closeT < slotEnd then []
      else
        let booked := apts.any (overlapB staffId cur slotEnd)
        let inClosed :=
          match pcWin with
          | some (cs, ce) => decide (timeMinOf cur < ce ∧ cs < timeMinOf slotEnd)
          | none => false
        let rest := genLoopS fuel (cur + stepMs) closeT durMs stepMs apts staffId pcWin now
        if !booked && !inClosed && decide (now < cur) then
          { startAt := cur, endAt := slotEnd,
            startMin := timeMinOf cur, endMin := timeMinOf slotEnd,
            available := true } :: rest
        else rest
    else []

/-- `getAvailableSlots(db, dateStr, serviceId, staffId, settings)` of
`src/server/lib/slots.js` for an already-parsed date `D` and clock `now`:
horizon, cutoff, holiday, schedule-exception pick (full closure
short-circuits), business hours with `special_open`/`modified_hours`
overrides, service, then per-period generation. -/
def getAvailableSlots (db : DB) (now D : Int) (serviceId : Int)
    (staffId : Option Int) (st : Settings) : SlotsResult :=
  let cutoffDays := parseIntD st.booking_cutoff_days 2
  let cutoffHours := parseIntD st.booking_cutoff_hours 3
  let maxDaysAhead := parseIntD st.booking_max_days_ahead 60
  if maxDateOf now maxDaysAhead < dayStart D then
    ⟨some (.beyondHorizon maxDaysAhead), []⟩
  else if cutoffDateOf (dayStart D) cutoffDays cutoffHours < now then
    ⟨some (.cutoffClosed cutoffDays cutoffHours), []⟩
  else
    match findHoliday db D with
    | some h => ⟨some (.holidayClosed h.name), []⟩
    | none =>
      let exc := pickException db.scheduleExceptions D
      match exc with
      | some e =>
        if e.exception_type = .closed then ⟨some (.exceptionClosed e.reason), []⟩
        else slotsForDay db now D serviceId staffId st (some e)
      | none => slotsForDay db now D serviceId staffId st none
where
  /-- Continuation after the full-closure check, parameterised by the
  picked exception. -/
  slotsForDay (db : DB) (now D : Int) (serviceId : Int)
      (staffId : Option Int) (st : Settings)
      (exc : Option ScheduleException) : SlotsResult :=
    match bhEffective db D exc with
    | none => ⟨some .dayClosed, []⟩
    | some bh =>
      if bh.is_closed then ⟨some .dayClosed, []⟩
      else
        match findService db serviceId with
        | none => ⟨some .invalidService, []⟩
        | some sv =>
          let slotDur := parseIntD st.slot_duration_minutes 30
          let apts := appointmentsOn db D staffId
          let pcWin : Option (Int × Int) :=
            match exc with
            | some e =>
              if e.exception_type = .part_closed then
                match e.start_time, e.end_time with
                | some a, some b => some (a, b)
                | _, _ => none
              else none
            | none => none
          let slots := (periodsOf bh).flatMap (fun p =>
            let openT := dayStart D + p.1 * msPerMinute
            let closeT := dayStart D + p.2 * msPerMinute
            genLoopS (genFuel openT closeT (slotDur * msPerMinute)) openT closeT
              (sv.duration_minutes * msPerMinute) (slotDur * msPerMinute)
              apts staffId pcWin now)
          ⟨none, slots⟩

/-- `SELECT capacity FROM slot_capacities WHERE specific_date = $1 AND
time_slot = $2`. -/
def findSpecificCapacity (db : DB) (d t : Int) : Option SlotCapacityRow :=
  db.slotCapacities.find? (fun r => decide (r.specific_date = some d ∧ r.time_slot = t))

/-- `SELECT capacity FROM slot_capacities WHERE day_of_week = $1 AND
time_slot = $2 AND specific_date IS NULL` (a NULL `day_of_week` never
matches the equality). -/
def findWeekdayCapacity (db : DB) (w t : Int) : Option SlotCapacityRow :=
  db.slotCapacities.find? (fun r =>
    decide (r.day_of_week = some w ∧ r.time_slot = t ∧ r.specific_date = none))

/-- Steps 2–3 of `getSlotCapacity`: weekday row, else
`parseInt(settings.default_slot_capacity) || 1`. -/
def getSlotCapacityDay (db : DB) (w t : Int) (st : Settings) : Int :=
  match findWeekdayCapacity db w t with
  | some r => r.capacity
  | none => parseIntD st.default_slot_capacity 1

/-- `getSlotCapacity(dayOfWeek, timeSlot, settings, dateStr)` of
`src/server/lib/slots.postgres.js`: specific-date row first (when a date
is given), then weekday row, then the default setting. -/
def getSlotCapacity (db : DB) (w t : Int) (st : Settings) (date : Option Int) : Int :=
  match date with
  | some d =>
    match findSpecificCapacity db d t with
    | some r => r.capacity
    | none => getSlotCapacityDay db w t st
  | none => getSlotCapacityDay db w t st

/-- `existingAppointments.filter(...).length`: confirmed same-day rows
already fetched, re-filtered by staff and open-interval overlap. -/
def countOverlaps (apts : List Appointment) (staffId : Option Int) (s e : Int) : Int :=
  ((apts.filter (overlapB staffId s e)).length : Int)

/-- A slot emitted by the Postgres generator: `{start, end, startAt, endAt,
available, bookingCount, capacity}`. -/
structure SlotPg where
  startAt : Int
  endAt : Int
  startMin : Int
  endMin : Int
  available : Bool
  bookingCount : Int
  capacity : Int
deriving DecidableEq, Repr

/-- `{slots, error}` of the Postgres generator. -/
structure SlotsPgResult where
  error : Option SlotsError
  slots : List SlotPg
deriving DecidableEq, Repr

/-- The Postgres generation loop: while `currentTime < closeTime`, break
when `slotEnd > closeTime`; skip lunch-overlapping candidates entirely;
otherwise count overlapping bookings, resolve the capacity for the
candidate's time of day, and emit the slot (also when unavailable)
provided it starts strictly after now. -/
def genLoopPg (fuel : Nat) (cur closeT durMs stepMs lunchS lunchE : Int)
    (db : DB) (D w : Int) (st : Settings)
    (apts : List Appointment) (staffId : Option Int) (now : Int) : List SlotPg :=
  match fuel with
  | 0 => []
  | fuel + 1 =>
    if cur < closeT then
      let slotEnd := cur + durMs
      if closeT < slotEnd then []
      else
        let isLunch :=
          decide ((lunchS ≤ cur ∧ cur < lunchE) ∨ (lunchS < slotEnd ∧ slotEnd ≤ lunchE) ∨
            (cur < lunchS ∧ lunchE < slotEnd))
        let rest := genLoopPg fuel (cur + stepMs) closeT durMs stepMs lunchS lunchE
          db D w st apts staffId now
        if isLunch then rest
        else
          let cnt := countOverlaps apts staffId cur slotEnd
          let cap := getSlotCapacity db w (timeMinOf cur) st (some D)
          if now < cur then
            { startAt := cur, endAt := slotEnd,
              startMin := timeMinOf cur, endMin := timeMinOf slotEnd,
              available := decide (cnt < cap),
              bookingCount := cnt, capacity := cap } :: rest
          else rest
    else []

/-- `getAvailableSlots(dateStr, serviceId, staffId, settings)` of
`src/server/lib/slots.postgres.js`: horizon, cutoff, holiday, weekday
business hours (no schedule exceptions in this variant), service, then
the legacy single-period loop with lunch break and capacity counting.
`none` models the TypeError thrown when the weekday row has no legacy
`open_time`/`close_time` pair to split. -/
def getAvailableSlotsPg (db : DB) (now D : Int) (serviceId : Int)
    (staffId : Option Int) (st : Settings) : Option SlotsPgResult :=
  let cutoffDays := parseIntD st.booking_cutoff_days 2
  let cutoffHours := parseIntD st.booking_cutoff_hours 3
  let maxDaysAhead := parseIntD st.booking_max_days_ahead 60
  if maxDateOf now maxDaysAhead < dayStart D then
    some ⟨some (.beyondHorizon maxDaysAhead), []⟩
  else if cutoffDateOf (dayStart D) cutoffDays cutoffHours < now then
    some ⟨some (.cutoffClosed cutoffDays cutoffHours), []⟩
  else
    match findHoliday db D with
    | some h => some ⟨some (.holidayClosed h.name), []⟩
    | none =>
      match findBusinessHours db (dayOfWeek D) with
      | none => some ⟨some .dayClosed, []⟩
      | some bh =>
        if bh.is_closed then some ⟨some .dayClosed, []⟩
        else
          match findService db serviceId with
          | none => some ⟨some .invalidService, []⟩
          | some sv =>
            match bh.open_time, bh.close_time with
            | some ot, some ct =>
              let slotDur := parseIntD st.slot_duration_minutes 30
              let lunchS := dayStart D + (st.lunch_start.getD 720) * msPerMinute
              let lunchE := dayStart D + (st.lunch_end.getD 780) * msPerMinute
              let apts := appointmentsOn db D staffId
              let openT := dayStart D + ot * msPerMinute
              let closeT := dayStart D + ct * msPerMinute
              some ⟨none, genLoopPg (genFuel openT closeT (slotDur * msPerMinute))
                openT closeT (sv.duration_minutes * msPerMinute)
                (slotDur * msPerMinute) lunchS lunchE db D (dayOfWeek D) st
                apts staffId now⟩
            | _, _ => none

/-- Availability flag of the generated Postgres slot starting at instant
`x`, if the generator succeeded and such a slot exists (for stating
concrete scenarios). -/
def pgSlotAvailAt (r : Option SlotsPgResult) (x : Int) : Option Bool :=
  r.bind (fun res => (res.slots.find? (fun s => decide (s.startAt = x))).map
    (fun s => s.available))

/-- Booking count and capacity of the generated Postgres slot starting at
instant `x`. -/
def pgSlotCountCapAt (r : Option SlotsPgResult) (x : Int) : Option (Int × Int) :=
  r.bind (fun res => (res.slots.find? (fun s => decide (s.startAt = x))).map
    (fun s => (s.bookingCount, s.capacity)))

/-- `POST /api/appointments` (both Express servers): run `validateBooking`
and, on success, insert the appointment row with the request's
`startAt`/`endAt` verbatim (status defaults to `'confirmed'`).  Only the
columns the engine reads are modelled. -/
def bookAppointment (db : DB) (now startAt endAt : Int) (serviceId : Int)
    (staffId : Option Int) (st : Settings) : Option Appointment :=
  if (validateBooking db now startAt endAt serviceId staffId st).valid then
    some { service_id := serviceId, staff_id := staffId,
           start_at := startAt, end_at := endAt, status := .confirmed }
  else none

/-- Admin edits of an appointment (`UPDATE appointments SET status = ?`,
`... SET notes = ?`) touch only the status/notes columns; the timestamp
columns are never rewritten. -/
def updateAppointmentStatus (a : Appointment) (s : AptStatus) : Appointment :=
  { a with status := s }

/-! Concrete fixtures used by witnesses and counterexamples.  Day 20003 is
a Monday (`dayOfWeek 20003 = 1`); `wNow` is local midnight two days
earlier, safely inside the default cutoff and horizon. -/

def wD : Int := 20003

def wNow : Int := dayStart 20001

def wSet : Settings := {}

def wBH : BusinessHours :=
  { day_of_week := 1, morning_open := some 540, morning_close := some 720,
    afternoon_open := some 780, afternoon_close := some 1080 }

def wSv : Service := { id := 1, duration_minutes := 30 }

def wDB : DB := { businessHours := [wBH], services := [wSv] }

def wApt : Appointment :=
  { service_id := 1, start_at := dayStart wD + 540 * msPerMinute,
    end_at := dayStart wD + 570 * msPerMinute }

def wCDB : DB :=
  { businessHours := [wBH], services := [wSv], appointments := [wApt] }

/-- The claimed cutoff instant for `wD` under default settings:
`wD - 2` days at 21:00 (= `24 - 3`). -/
def cutI : Int := dayStart 20001 + 21 * 3600000

def cEx : ScheduleException :=
  { start_date := 20003, end_date := 20003, exception_type := .closed,
    reason := some "New Year" }

def spEx : ScheduleException :=
  { start_date := 20003, end_date := 20003, exception_type := .special_open,
    morning_open := some 600, morning_close := some 780 }

/-- A store where both a `special_open` and a `closed` exception match day
`wD` (the `special_open` row listed first). -/
def cDB : DB :=
  { businessHours := [wBH], services := [wSv], scheduleExceptions := [spEx, cEx] }

def pgBH : BusinessHours :=
  { day_of_week := 1, open_time := some 540, close_time := some 720 }

def pgApt : Appointment :=
  { service_id := 1, start_at := dayStart wD + 540 * msPerMinute,
    end_at := dayStart wD + 570 * msPerMinute }

def pgCapRow : SlotCapacityRow :=
  { day_of_week := some 1, time_slot := 540, capacity := 3 }

/-- Scenario F store: Monday 09:00 capacity 3, three unstaffed confirmed
bookings at 09:00–09:30. -/
def pgDB : DB :=
  { businessHours := [pgBH], services := [wSv],
    appointments := [pgApt, pgApt, pgApt], slotCapacities := [pgCapRow] }

def pgRes : SlotsPgResult :=
  (getAvailableSlotsPg pgDB wNow wD 1 none wSet).getD ⟨none, []⟩

def pgSlot0 : SlotPg := pgRes.slots.headD ⟨0, 0, 0, 0, false, 0, 0⟩

def capSpecRow : SlotCapacityRow :=
  { day_of_week := none, time_slot := 540, capacity := 2, specific_date := some 20003 }

/-- Capacity store with both a specific-date row and a weekday row for
09:00. -/
def capDB : DB := { slotCapacities := [pgCapRow, capSpecRow] }

/-- The appointment row created by a booking whose client-supplied
interval is 15 minutes although the service lasts 30. -/
def apt15 : Appointment :=
  (bookAppointment wDB wNow (dayStart wD + 540 * msPerMinute)
    (dayStart wD + 555 * msPerMinute) 1 none wSet).getD
    { service_id := 0, start_at := 0, end_at := 0 }

def wSlot0 : Slot :=
  (getAvailableSlots wDB wNow wD 1 none wSet).slots.headD ⟨0, 0, 0, 0, false⟩

def wHol : Holiday := { date := 20003, name := some "Founding Day" }

/-- Store with a named holiday on day `wD`. -/
def hDB : DB := { businessHours := [wBH], services := [wSv], holidays := [wHol] }

/-- The appointment row created by a well-formed 30-minute booking. -/
def aptOk : Appointment :=
  (bookAppointment wDB wNow (dayStart wD + 540 * msPerMinute)
    (dayStart wD + 570 * msPerMinute) 1 none wSet).getD
    { service_id := 0, start_at := 0, end_at := 0 }

/-! Helper lemmas. -/

theorem staffClause_iff (staffId : Option Int) (a : Appointment) :
    staffClause staffId a ↔
      ∀ sid, staffId = some sid → (a.staff_id = some sid ∨ a.staff_id = none) := by
  cases staffId <;> simp [staffClause]

theorem hasConflictB_iff (db : DB) (startAt endAt : Int) (staffId : Option Int) :
    hasConflictB db startAt endAt staffId = true ↔
      ∃ a ∈ db.appointments, a.status = .confirmed ∧ a.start_at < endAt ∧
        startAt < a.end_at ∧ staffClause staffId a := by
  unfold hasConflictB
  rw [List.any_eq_true]
  simp only [decide_eq_true_eq]

/-- Once every precondition of `validateBooking` up to the staff check
holds, the outcome is decided purely by the conflict query. -/
theorem validateBooking_reaches_conflict
    (db : DB) (now startAt endAt serviceId : Int) (staffId : Option Int)
    (st : Settings) (bh : BusinessHours)
    (h1 : startAt < endAt)
    (h2 : startAt ≤ maxDateOf now (parseIntD st.booking_max_days_ahead 60))
    (h3 : now ≤ cutoffDateOf startAt (parseIntD st.booking_cutoff_days 2)
      (parseIntD st.booking_cutoff_hours 3))
    (h4 : now < startAt)
    (h5 : findHoliday db (dayOf startAt) = none)
    (h6 : findBusinessHours db (dayOfWeek (dayOf startAt)) = some bh)
    (h7 : bh.is_closed = false)
    (h8 : (findService db serviceId).isNone = false)
    (h9 : ∀ sid, staffId = some sid → (findStaff db sid).isNone = false) :
    validateBooking db now startAt endAt serviceId staffId st =
      if hasConflictB db startAt endAt staffId then ⟨false, some .conflict⟩
      else ⟨true, none⟩ := by
  have e1 : ¬ endAt ≤ startAt := not_le.mpr h1
  have e2 : ¬ maxDateOf now (parseIntD st.booking_max_days_ahead 60) < startAt :=
    not_lt.mpr h2
  have e3 : ¬ cutoffDateOf startAt (parseIntD st.booking_cutoff_days 2)
      (parseIntD st.booking_cutoff_hours 3) < now := not_lt.mpr h3
  have e4 : ¬ startAt ≤ now := not_le.mpr h4
  unfold validateBooking
  rw [if_neg e1, if_neg e2, if_neg e3, if_neg e4, h5, h6]
  simp only [Option.isSome_none, Bool.false_eq_true, if_false, h7]
  cases staffId with
  | none =>
    simp [h8]
  | some sid =>
    simp [h8, h9 sid rfl]

/-- A successful validation presupposes a positive interval (the very
first check of `validateBooking`). -/
theorem validateBooking_valid_start_lt_end
    (db : DB) (now startAt endAt serviceId : Int) (staffId : Option Int)
    (st : Settings)
    (hv : (validateBooking db now startAt endAt serviceId staffId st).valid = true) :
    startAt < endAt := by
  by_contra hle
  rw [not_lt] at hle
  unfold validateBooking at hv
  rw [if_pos hle] at hv
  simp at hv

/-- C1: for every call to `validateBooking` that reaches the conflict
check, the result is invalid with the "already booked" conflict error if
and only if a confirmed appointment exists with
`existing.start_at < endAt` and `existing.end_at > startAt` and, when a
staff id is given, `existing.staff_id = staffId` or NULL.  The right-hand
side is a bare existence test, so an interval merely adjacent to an
existing appointment (`startAt = existing.end_at` or
`endAt = existing.start_at`) never satisfies it, and no capacity count is
involved. -/
theorem claim_C1_conflict_check
    (db : DB) (now startAt endAt serviceId : Int) (staffId : Option Int)
    (st : Settings) (bh : BusinessHours)
    (h1 : startAt < endAt)
    (h2 : startAt ≤ maxDateOf now (parseIntD st.booking_max_days_ahead 60))
    (h3 : now ≤ cutoffDateOf startAt (parseIntD st.booking_cutoff_days 2)
      (parseIntD st.booking_cutoff_hours 3))
    (h4 : now < startAt)
    (h5 : findHoliday db (dayOf startAt) = none)
    (h6 : findBusinessHours db (dayOfWeek (dayOf startAt)) = some bh)
    (h7 : bh.is_closed = false)
    (h8 : (findService db serviceId).isNone = false)
    (h9 : ∀ sid, staffId = some sid → (findStaff db sid).isNone = false) :
    validateBooking db now startAt endAt serviceId staffId st
        = ⟨false, some .conflict⟩ ↔
      ∃ a ∈ db.appointments, a.status = .confirmed ∧ a.start_at < endAt ∧
        startAt < a.end_at ∧
        (∀ sid, staffId = some sid → (a.staff_id = some sid ∨ a.staff_id = none)) := by
  rw [validateBooking_reaches_conflict db now startAt endAt serviceId staffId st bh
    h1 h2 h3 h4 h5 h6 h7 h8 h9]
  have key := hasConflictB_iff db startAt endAt staffId
  by_cases hc : hasConflictB db startAt endAt staffId
  · rw [if_pos hc]
    refine iff_of_true rfl ?_
    obtain ⟨a, ha, hs, hl1, hl2, hsc⟩ := key.mp hc
    exact ⟨a, ha, hs, hl1, hl2, (staffClause_iff staffId a).mp hsc⟩
  · rw [if_neg hc]
    refine iff_of_false (by simp) ?_
    rintro ⟨a, ha, hs, hl1, hl2, hsc⟩
    exact hc (key.mpr ⟨a, ha, hs, hl1, hl2, (staffClause_iff staffId a).mpr hsc⟩)

theorem claim_C1_witness :
    (dayStart wD + 540 * msPerMinute < dayStart wD + 570 * msPerMinute) ∧
      (validateBooking wCDB wNow (dayStart wD + 540 * msPerMinute)
          (dayStart wD + 570 * msPerMinute) 1 none wSet
          = ⟨false, some .conflict⟩ ↔
        ∃ a ∈ wCDB.appointments, a.status = .confirmed ∧
          a.start_at < dayStart wD + 570 * msPerMinute ∧
          dayStart wD + 540 * msPerMinute < a.end_at ∧
          (∀ sid, (none : Option Int) = some sid →
            (a.staff_id = some sid ∨ a.staff_id = none))) :=
  ⟨by decide,
    claim_C1_conflict_check wCDB wNow (dayStart wD + 540 * msPerMinute)
      (dayStart wD + 570 * msPerMinute) 1 none wSet wBH (by decide) (by decide)
      (by decide) (by decide) (by decide) (by decide) (by decide) (by decide)
      (fun sid h => Option.noConfusion h)⟩

/-- C9 (amended): `validateBooking` with `startAt = now - 1s` is indeed
rejected, but with the booking-cutoff error, not the past-date error: the
cutoff check runs before the past-date check and already fails for any
start within `cutoff_days ≥ 1` days of now (the `parseInt(x) || d`
parsing can only make `cutoff_days` default to 2, so a non-negative
configured value always satisfies the hypotheses). -/
theorem claim_C9_rejected_at_cutoff
    (db : DB) (now endAt serviceId : Int) (staffId : Option Int) (st : Settings)
    (hmda : 0 ≤ parseIntD st.booking_max_days_ahead 60)
    (hcd : 1 ≤ parseIntD st.booking_cutoff_days 2)
    (hch : 0 ≤ parseIntD st.booking_cutoff_hours 3)
    (hend : now - 1000 < endAt) :
    validateBooking db now (now - 1000) endAt serviceId staffId st =
      ⟨false, some .cutoffClosed⟩ := by
  have e1 : ¬ endAt ≤ now - 1000 := not_le.mpr hend
  have e2 : ¬ maxDateOf now (parseIntD st.booking_max_days_ahead 60) < now - 1000 := by
    unfold maxDateOf dayStart dayOf msPerDay
    omega
  have e3 : cutoffDateOf (now - 1000) (parseIntD st.booking_cutoff_days 2)
      (parseIntD st.booking_cutoff_hours 3) < now := by
    unfold cutoffDateOf dayStart dayOf msPerDay
    omega
  simp only [validateBooking]
  rw [if_neg e1, if_neg e2, if_pos e3]

theorem claim_C9_witness :
    (1 ≤ parseIntD wSet.booking_cutoff_days 2) ∧
      validateBooking wDB wNow (wNow - 1000) (wNow + 800000) 1 none wSet =
        ⟨false, some .cutoffClosed⟩ :=
  ⟨by decide,
    claim_C9_rejected_at_cutoff wDB wNow (wNow + 800000) 1 none wSet
      (by decide) (by decide) (by decide) (by decide)⟩

/-- C9 counterexample: with every other field valid (active service,
positive interval, open weekday), a start one second in the past is
rejected with the cutoff error — a different error from the past-date
one the claim names. -/
theorem claim_C9_counterexample :
    validateBooking wDB wNow (wNow - 1000) (wNow + 800000) 1 none wSet =
        ⟨false, some .cutoffClosed⟩ ∧
      BookingError.cutoffClosed ≠ BookingError.pastDateTime := by
  exact ⟨by decide, by decide⟩

/-- C10: `validateBooking` never checks the proposed interval against the
day's open periods.  Whenever the interval is positive, within horizon,
before the cutoff, strictly in the future, on a non-holiday date whose
weekday row exists with the closed flag unset, with an active service
(and active staff when given) and no overlapping confirmed appointment,
the booking validates — the statement imposes no condition whatsoever on
the weekday's morning/afternoon open-close pairs. -/
theorem claim_C10_no_period_check
    (db : DB) (now startAt endAt serviceId : Int) (staffId : Option Int)
    (st : Settings) (bh : BusinessHours)
    (h1 : startAt < endAt)
    (h2 : startAt ≤ maxDateOf now (parseIntD st.booking_max_days_ahead 60))
    (h3 : now ≤ cutoffDateOf startAt (parseIntD st.booking_cutoff_days 2)
      (parseIntD st.booking_cutoff_hours 3))
    (h4 : now < startAt)
    (h5 : findHoliday db (dayOf startAt) = none)
    (h6 : findBusinessHours db (dayOfWeek (dayOf startAt)) = some bh)
    (h7 : bh.is_closed = false)
    (h8 : (findService db serviceId).isNone = false)
    (h9 : ∀ sid, staffId = some sid → (findStaff db sid).isNone = false)
    (h10 : ¬ ∃ a ∈ db.appointments, a.status = .confirmed ∧ a.start_at < endAt ∧
      startAt < a.end_at ∧ staffClause staffId a) :
    validateBooking db now startAt endAt serviceId staffId st = ⟨true, none⟩ := by
  rw [validateBooking_reaches_conflict db now startAt endAt serviceId staffId st bh
    h1 h2 h3 h4 h5 h6 h7 h8 h9]
  exact if_neg (fun hc => h10 ((hasConflictB_iff db startAt endAt staffId).mp hc))

/-- C10 witness: 03:00–03:30 on an open Monday whose hours are
09:00–12:00 / 13:00–18:00 validates successfully. -/
theorem claim_C10_witness :
    (dayStart wD + 180 * msPerMinute < dayStart wD + 210 * msPerMinute) ∧
      validateBooking wDB wNow (dayStart wD + 180 * msPerMinute)
        (dayStart wD + 210 * msPerMinute) 1 none wSet = ⟨true, none⟩ :=
  ⟨by decide,
    claim_C10_no_period_check wDB wNow (dayStart wD + 180 * msPerMinute)
      (dayStart wD + 210 * msPerMinute) 1 none wSet wBH (by decide) (by decide)
      (by decide) (by decide) (by decide) (by decide) (by decide) (by decide)
      (fun sid h => Option.noConfusion h) (by decide)⟩

/-- C7 (amended): `validateBooking` is completely insensitive to the
`schedule_exceptions` table, so only holiday closures (and the weekday
closed flag) can reject a booking for a closed day; a holiday rejection
happens before the service/staff/conflict checks but carries the fixed
generic closed-day message, not the holiday's own name/reason. -/
theorem claim_C7_closure_handling
    (db : DB) (now startAt endAt serviceId : Int) (staffId : Option Int)
    (st : Settings) (exs : List ScheduleException)
    (hhol : (findHoliday db (dayOf startAt)).isSome = true)
    (h1 : startAt < endAt)
    (h2 : startAt ≤ maxDateOf now (parseIntD st.booking_max_days_ahead 60))
    (h3 : now ≤ cutoffDateOf startAt (parseIntD st.booking_cutoff_days 2)
      (parseIntD st.booking_cutoff_hours 3))
    (h4 : now < startAt) :
    validateBooking { db with scheduleExceptions := exs } now startAt endAt
        serviceId staffId st
      = validateBooking db now startAt endAt serviceId staffId st ∧
    validateBooking db now startAt endAt serviceId staffId st
      = ⟨false, some .holidayClosed⟩ := by
  refine ⟨rfl, ?_⟩
  have e1 : ¬ endAt ≤ startAt := not_le.mpr h1
  have e2 : ¬ maxDateOf now (parseIntD st.booking_max_days_ahead 60) < startAt :=
    not_lt.mpr h2
  have e3 : ¬ cutoffDateOf startAt (parseIntD st.booking_cutoff_days 2)
      (parseIntD st.booking_cutoff_hours 3) < now := not_lt.mpr h3
  have e4 : ¬ startAt ≤ now := not_le.mpr h4
  simp only [validateBooking]
  rw [if_neg e1, if_neg e2, if_neg e3, if_neg e4, if_pos hhol]

theorem claim_C7_witness :
    ((findHoliday hDB (dayOf (dayStart wD + 540 * msPerMinute))).isSome = true) ∧
      (validateBooking { hDB with scheduleExceptions := [cEx] } wNow
          (dayStart wD + 540 * msPerMinute) (dayStart wD + 570 * msPerMinute)
          1 none wSet
        = validateBooking hDB wNow (dayStart wD + 540 * msPerMinute)
          (dayStart wD + 570 * msPerMinute) 1 none wSet ∧
      validateBooking hDB wNow (dayStart wD + 540 * msPerMinute)
          (dayStart wD + 570 * msPerMinute) 1 none wSet
        = ⟨false, some .holidayClosed⟩) :=
  ⟨by decide,
    claim_C7_closure_handling hDB wNow (dayStart wD + 540 * msPerMinute)
      (dayStart wD + 570 * msPerMinute) 1 none wSet [cEx] (by decide) (by decide)
      (by decide) (by decide) (by decide)⟩

/-- C7 counterexample: day `wD` is covered by a `closed`-type schedule
exception (the slot generator — the schedule resolver of record — refuses
the whole day with the exception's reason), yet `validateBooking` accepts
a booking on that very day, contradicting the claim that it returns
invalid with the closure's reason. -/
theorem claim_C7_counterexample :
    pickException cDB.scheduleExceptions wD = some cEx ∧
      cEx.exception_type = .closed ∧
      getAvailableSlots cDB wNow wD 1 none wSet =
        ⟨some (.exceptionClosed (some "New Year")), []⟩ ∧
      validateBooking cDB wNow (dayStart wD + 540 * msPerMinute)
        (dayStart wD + 570 * msPerMinute) 1 none wSet = ⟨true, none⟩ :=
  ⟨by decide, by decide, by decide, by decide⟩

/-- C8 (amended): every appointment created through the booking flow has
`start_at < end_at` and stores exactly the client-supplied timestamps
(status `confirmed`), and the admin status edit leaves both timestamps
untouched; the flow does not check `end_at - start_at` against the
service's duration. -/
theorem claim_C8_created_interval
    (db : DB) (now startAt endAt serviceId : Int) (staffId : Option Int)
    (st : Settings) (apt : Appointment)
    (h : bookAppointment db now startAt endAt serviceId staffId st = some apt) :
    apt.start_at < apt.end_at ∧ apt.start_at = startAt ∧ apt.end_at = endAt ∧
      apt.status = .confirmed ∧
      ∀ s, (updateAppointmentStatus apt s).start_at = apt.start_at ∧
        (updateAppointmentStatus apt s).end_at = apt.end_at := by
  unfold bookAppointment at h
  by_cases hv : (validateBooking db now startAt endAt serviceId staffId st).valid = true
  · rw [if_pos hv] at h
    injection h with h
    subst h
    exact ⟨validateBooking_valid_start_lt_end db now startAt endAt serviceId
      staffId st hv, rfl, rfl, rfl, fun s => ⟨rfl, rfl⟩⟩
  · rw [if_neg hv] at h
    exact absurd h (by simp)

theorem claim_C8_witness :
    (bookAppointment wDB wNow (dayStart wD + 540 * msPerMinute)
        (dayStart wD + 570 * msPerMinute) 1 none wSet = some aptOk) ∧
      aptOk.start_at < aptOk.end_at ∧
      aptOk.start_at = dayStart wD + 540 * msPerMinute ∧
      aptOk.end_at = dayStart wD + 570 * msPerMinute ∧
      aptOk.status = .confirmed :=
  ⟨by decide,
    (claim_C8_created_interval wDB wNow (dayStart wD + 540 * msPerMinute)
      (dayStart wD + 570 * msPerMinute) 1 none wSet aptOk (by decide)).1,
    (claim_C8_created_interval wDB wNow (dayStart wD + 540 * msPerMinute)
      (dayStart wD + 570 * msPerMinute) 1 none wSet aptOk (by decide)).2.1,
    (claim_C8_created_interval wDB wNow (dayStart wD + 540 * msPerMinute)
      (dayStart wD + 570 * msPerMinute) 1 none wSet aptOk (by decide)).2.2.1,
    (claim_C8_created_interval wDB wNow (dayStart wD + 540 * msPerMinute)
      (dayStart wD + 570 * msPerMinute) 1 none wSet aptOk (by decide)).2.2.2.1⟩

/-- C8 counterexample: the flow accepts and persists a 15-minute interval
for a 30-minute service — `end_at - start_at` differs from the service's
duration at creation time, refuting the claimed invariant. -/
theorem claim_C8_counterexample :
    bookAppointment wDB wNow (dayStart wD + 540 * msPerMinute)
        (dayStart wD + 555 * msPerMinute) 1 none wSet = some apt15 ∧
      findService wDB 1 = some wSv ∧
      apt15.end_at - apt15.start_at ≠ wSv.duration_minutes * msPerMinute :=
  ⟨by decide, by decide, by decide⟩

/-- When some matching exception is `closed`, the `ORDER BY ... LIMIT 1`
pick returns a matching `closed` exception. -/
theorem pickException_closed (exs : List ScheduleException) (D : Int)
    (h : ∃ e ∈ exs, (e.start_date ≤ D ∧ D ≤ e.end_date) ∧
      e.exception_type = .closed) :
    ∃ e, pickException exs D = some e ∧ e.exception_type = .closed ∧
      e.start_date ≤ D ∧ D ≤ e.end_date := by
  obtain ⟨e0, he0, hm, ht⟩ := h
  set ms := exs.filter (fun e => decide (e.start_date ≤ D ∧ D ≤ e.end_date)) with hms
  have h0 : e0 ∈ ms.filter (fun e => decide (e.exception_type = .closed)) := by
    simp only [hms, List.mem_filter, decide_eq_true_eq]
    exact ⟨⟨he0, hm⟩, ht⟩
  cases hl : ms.filter (fun e => decide (e.exception_type = .closed)) with
  | nil =>
    rw [hl] at h0
    cases h0
  | cons e t =>
    have he : e ∈ ms.filter (fun e => decide (e.exception_type = .closed)) := by
      rw [hl]
      exact List.mem_cons_self e t
    rw [List.mem_filter, decide_eq_true_eq] at he
    have hems := he.1
    rw [hms, List.mem_filter, decide_eq_true_eq] at hems
    refine ⟨e, ?_, he.2, hems.2.1, hems.2.2⟩
    simp only [pickException]
    rw [← hms, hl]

/-- C4: when a `closed`-type exception matches the date (and the earlier
horizon/cutoff/holiday gates pass), the exception pick resolves to a
matching `closed` exception — so `closed` beats `partial_closed`,
`modified_hours` and `special_open` — and the generator refuses the whole
day with that exception's reason; in particular no `special_open`
override is ever applied on such a date. -/
theorem claim_C4_closed_precedence
    (db : DB) (now D serviceId : Int) (staffId : Option Int) (st : Settings)
    (h1 : dayStart D ≤ maxDateOf now (parseIntD st.booking_max_days_ahead 60))
    (h2 : now ≤ cutoffDateOf (dayStart D) (parseIntD st.booking_cutoff_days 2)
      (parseIntD st.booking_cutoff_hours 3))
    (h3 : findHoliday db D = none)
    (h4 : ∃ e ∈ db.scheduleExceptions,
      (e.start_date ≤ D ∧ D ≤ e.end_date) ∧ e.exception_type = .closed) :
    ∃ e, pickException db.scheduleExceptions D = some e ∧
      e.exception_type = .closed ∧
      getAvailableSlots db now D serviceId staffId st =
        ⟨some (.exceptionClosed e.reason), []⟩ := by
  obtain ⟨e, hpick, ht, hm1, hm2⟩ := pickException_closed db.scheduleExceptions D h4
  refine ⟨e, hpick, ht, ?_⟩
  have e1 : ¬ maxDateOf now (parseIntD st.booking_max_days_ahead 60) < dayStart D :=
    not_lt.mpr h1
  have e2 : ¬ cutoffDateOf (dayStart D) (parseIntD st.booking_cutoff_days 2)
      (parseIntD st.booking_cutoff_hours 3) < now := not_lt.mpr h2
  simp only [getAvailableSlots]
  rw [if_neg e1, if_neg e2, h3, hpick]
  simp [ht]

theorem claim_C4_witness :
    (∃ e ∈ cDB.scheduleExceptions,
        (e.start_date ≤ wD ∧ wD ≤ e.end_date) ∧ e.exception_type = .closed) ∧
      ∃ e, pickException cDB.scheduleExceptions wD = some e ∧
        e.exception_type = .closed ∧
        getAvailableSlots cDB wNow wD 1 none wSet =
          ⟨some (.exceptionClosed e.reason), []⟩ :=
  ⟨by decide,
    claim_C4_closed_precedence cDB wNow wD 1 none wSet (by decide) (by decide)
      (by decide) (by decide)⟩

/-- The per-day continuation of the generator never reports the cutoff
error (its only errors are the closed-day and invalid-service ones). -/
theorem slotsForDay_ne_cutoff
    (db : DB) (now D serviceId : Int) (staffId : Option Int) (st : Settings)
    (exc : Option ScheduleException) (a b : Int) :
    getAvailableSlots.slotsForDay db now D serviceId staffId st exc ≠
      ⟨some (.cutoffClosed a b), []⟩ := by
  unfold getAvailableSlots.slotsForDay
  split
  · simp
  · split
    · simp
    · split
      · simp
      · simp

/-- C2 (amended): given the horizon gate passes, the generator returns the
booking-window-closed error (with an empty slot list) exactly when `now`
is at or after the instant `D - cutoff_days` days at clock time
`(24 - cutoff_hours):00` — i.e. slots for `D` are offered strictly before
that instant (equivalently up to and including
`(23 - cutoff_hours):59:59.999`), not up to and including the instant
itself. -/
theorem claim_C2_cutoff_boundary
    (db : DB) (now D serviceId : Int) (staffId : Option Int) (st : Settings)
    (h : dayStart D ≤ maxDateOf now (parseIntD st.booking_max_days_ahead 60)) :
    getAvailableSlots db now D serviceId staffId st =
        ⟨some (.cutoffClosed (parseIntD st.booking_cutoff_days 2)
          (parseIntD st.booking_cutoff_hours 3)), []⟩ ↔
      dayStart (D - parseIntD st.booking_cutoff_days 2) +
        (24 - parseIntD st.booking_cutoff_hours 3) * 3600000 ≤ now := by
  have e1 : ¬ maxDateOf now (parseIntD st.booking_max_days_ahead 60) < dayStart D :=
    not_lt.mpr h
  have hbd : cutoffDateOf (dayStart D) (parseIntD st.booking_cutoff_days 2)
      (parseIntD st.booking_cutoff_hours 3) < now ↔
      dayStart (D - parseIntD st.booking_cutoff_days 2) +
        (24 - parseIntD st.booking_cutoff_hours 3) * 3600000 ≤ now := by
    unfold cutoffDateOf dayStart dayOf msPerDay
    omega
  simp only [getAvailableSlots]
  rw [if_neg e1]
  by_cases hc : cutoffDateOf (dayStart D) (parseIntD st.booking_cutoff_days 2)
      (parseIntD st.booking_cutoff_hours 3) < now
  · rw [if_pos hc]
    exact iff_of_true rfl (hbd.mp hc)
  · rw [if_neg hc]
    refine iff_of_false ?_ (fun hr => hc (hbd.mpr hr))
    cases hho : findHoliday db D with
    | some hh => simp
    | none =>
      cases hp : pickException db.scheduleExceptions D with
      | none => exact slotsForDay_ne_cutoff db now D serviceId staffId st none _ _
      | some e =>
        by_cases hce : e.exception_type = .closed
        · simp [hce]
        · simp only [hce, if_false]
          exact slotsForDay_ne_cutoff db now D serviceId staffId st (some e) _ _

theorem claim_C2_witness :
    (dayStart wD ≤ maxDateOf cutI (parseIntD wSet.booking_max_days_ahead 60)) ∧
      (getAvailableSlots wDB cutI wD 1 none wSet =
          ⟨some (.cutoffClosed (parseIntD wSet.booking_cutoff_days 2)
            (parseIntD wSet.booking_cutoff_hours 3)), []⟩ ↔
        dayStart (wD - parseIntD wSet.booking_cutoff_days 2) +
          (24 - parseIntD wSet.booking_cutoff_hours 3) * 3600000 ≤ cutI) :=
  ⟨by decide, claim_C2_cutoff_boundary wDB cutI wD 1 none wSet (by decide)⟩

/-- C2 counterexample: with default settings the cutoff instant for
Monday `wD` is two days earlier at 21:00 (`cutI`).  One millisecond
before it the generator still offers slots, but exactly at the instant —
which the claim says is still offered — it already returns the
booking-window-closed error with an empty list. -/
theorem claim_C2_counterexample :
    getAvailableSlots wDB cutI wD 1 none wSet =
        ⟨some (.cutoffClosed 2 3), []⟩ ∧
      (getAvailableSlots wDB (cutI - 1) wD 1 none wSet).error = none ∧
      (getAvailableSlots wDB (cutI - 1) wD 1 none wSet).slots ≠ [] :=
  ⟨by decide, by decide, by decide⟩

/-- Every slot the SQLite loop emits spans exactly `durMs` and ends no
later than the period's close instant, for any fuel. -/
theorem genLoopS_mem (fuel : Nat) (cur closeT durMs stepMs : Int)
    (apts : List Appointment) (staffId : Option Int)
    (pcWin : Option (Int × Int)) (now : Int) (s : Slot)
    (hs : s ∈ genLoopS fuel cur closeT durMs stepMs apts staffId pcWin now) :
    s.endAt = s.startAt + durMs ∧ s.endAt ≤ closeT := by
  induction fuel generalizing cur with
  | zero => simp [genLoopS] at hs
  | succ n ih =>
    simp only [genLoopS] at hs
    split at hs
    · split at hs
      · cases hs
      · split at hs
        · rcases List.mem_cons.mp hs with h | h
          · subst h
            refine ⟨rfl, ?_⟩
            show cur + durMs ≤ closeT
            omega
          · exact ih (cur + stepMs) h
        · exact ih (cur + stepMs) hs
    · cases hs

/-- Every slot the Postgres loop emits spans exactly `durMs`, ends no
later than close, and carries the overlap count, resolved capacity, and
the `count < capacity` availability flag for its own start instant. -/
theorem genLoopPg_mem (fuel : Nat) (cur closeT durMs stepMs lunchS lunchE : Int)
    (db : DB) (D w : Int) (st : Settings) (apts : List Appointment)
    (staffId : Option Int) (now : Int) (s : SlotPg)
    (hs : s ∈ genLoopPg fuel cur closeT durMs stepMs lunchS lunchE db D w st
      apts staffId now) :
    s.endAt = s.startAt + durMs ∧ s.endAt ≤ closeT ∧
      s.bookingCount = countOverlaps apts staffId s.startAt s.endAt ∧
      s.capacity = getSlotCapacity db w (timeMinOf s.startAt) st (some D) ∧
      s.available = decide (s.bookingCount < s.capacity) := by
  induction fuel generalizing cur with
  | zero => simp [genLoopPg] at hs
  | succ n ih =>
    simp only [genLoopPg] at hs
    split at hs
    · split at hs
      · cases hs
      · split at hs
        · exact ih (cur + stepMs) hs
        · split at hs
          · rcases List.mem_cons.mp hs with h | h
            · subst h
              refine ⟨rfl, ?_, rfl, rfl, rfl⟩
              show cur + durMs ≤ closeT
              omega
            · exact ih (cur + stepMs) h
          · exact ih (cur + stepMs) hs
    · cases hs

/-- Inversion for a successful Postgres generation: a member slot comes
out of the generation loop of the weekday row's legacy period, with the
business-hours row, service, and pair all resolved. -/
theorem getAvailableSlotsPg_success
    (db : DB) (now D serviceId : Int) (staffId : Option Int) (st : Settings)
    (res : SlotsPgResult)
    (hres : getAvailableSlotsPg db now D serviceId staffId st = some res)
    (s : SlotPg) (hs : s ∈ res.slots) :
    ∃ bh sv ot ct, findBusinessHours db (dayOfWeek D) = some bh ∧
      findService db serviceId = some sv ∧
      bh.open_time = some ot ∧ bh.close_time = some ct ∧
      s ∈ genLoopPg
        (genFuel (dayStart D + ot * msPerMinute) (dayStart D + ct * msPerMinute)
          (parseIntD st.slot_duration_minutes 30 * msPerMinute))
        (dayStart D + ot * msPerMinute) (dayStart D + ct * msPerMinute)
        (sv.duration_minutes * msPerMinute)
        (parseIntD st.slot_duration_minutes 30 * msPerMinute)
        (dayStart D + (st.lunch_start.getD 720) * msPerMinute)
        (dayStart D + (st.lunch_end.getD 780) * msPerMinute)
        db D (dayOfWeek D) st (appointmentsOn db D staffId) staffId now := by
  simp only [getAvailableSlotsPg] at hres
  split at hres
  · injection hres with h
    subst h
    simp at hs
  · split at hres
    · injection hres with h
      subst h
      simp at hs
    · cases hho : findHoliday db D with
      | some hh =>
        rw [hho] at hres
        dsimp only at hres
        injection hres with h
        subst h
        simp at hs
      | none =>
        rw [hho] at hres
        dsimp only at hres
        cases hfb : findBusinessHours db (dayOfWeek D) with
        | none =>
          rw [hfb] at hres
          dsimp only at hres
          injection hres with h
          subst h
          simp at hs
        | some bh =>
          rw [hfb] at hres
          dsimp only at hres
          by_cases hcl : bh.is_closed = true
          · rw [if_pos hcl] at hres
            injection hres with h
            subst h
            simp at hs
          · rw [if_neg hcl] at hres
            cases hsv : findService db serviceId with
            | none =>
              rw [hsv] at hres
              dsimp only at hres
              injection hres with h
              subst h
              simp at hs
            | some sv =>
              rw [hsv] at hres
              dsimp only at hres
              cases hot : bh.open_time with
              | none =>
                rw [hot] at hres
                cases hct : bh.close_time with
                | none =>
                  rw [hct] at hres
                  dsimp only at hres
                  cases hres
                | some ct =>
                  rw [hct] at hres
                  dsimp only at hres
                  cases hres
              | some ot =>
                rw [hot] at hres
                cases hct : bh.close_time with
                | none =>
                  rw [hct] at hres
                  dsimp only at hres
                  cases hres
                | some ct =>
                  rw [hct] at hres
                  dsimp only at hres
                  injection hres with h
                  subst h
                  exact ⟨bh, sv, ot, ct, rfl, rfl, hot, hct, hs⟩

/-- Slots of the per-day continuation: exact service duration, end within
the generating period. -/
theorem slotsForDay_mem (db : DB) (now D serviceId : Int) (staffId : Option Int)
    (st : Settings) (exc : Option ScheduleException) (sv : Service) (s : Slot)
    (hsv : findService db serviceId = some sv)
    (hs : s ∈ (getAvailableSlots.slotsForDay db now D serviceId staffId st exc).slots) :
    s.endAt - s.startAt = sv.duration_minutes * msPerMinute ∧
      ∃ p ∈ periodsUnder db D exc, s.endAt ≤ dayStart D + p.2 * msPerMinute := by
  simp only [getAvailableSlots.slotsForDay] at hs
  cases hbh : bhEffective db D exc with
  | none =>
    rw [hbh] at hs
    simp at hs
  | some bh =>
    rw [hbh] at hs
    dsimp only at hs
    by_cases hcl : bh.is_closed = true
    · rw [if_pos hcl] at hs
      simp at hs
    · rw [if_neg hcl] at hs
      rw [hsv] at hs
      dsimp only at hs
      simp only [List.mem_flatMap] at hs
      obtain ⟨p, hp, hmem⟩ := hs
      have hm := genLoopS_mem _ _ _ _ _ _ _ _ _ _ hmem
      refine ⟨by omega, ⟨p, ?_, hm.2⟩⟩
      unfold periodsUnder
      rw [hbh]
      dsimp only
      rw [if_neg hcl]
      exact hp

/-- C3: every slot either generator emits spans exactly the requested
service's `duration_minutes`, and ends no later than the close time of
the open period it was generated in (for the Postgres variant: the
weekday row's legacy close time). -/
theorem claim_C3_slot_duration
    (db : DB) (now D serviceId : Int) (staffId : Option Int) (st : Settings)
    (sv : Service) (hsv : findService db serviceId = some sv) :
    (∀ s ∈ (getAvailableSlots db now D serviceId staffId st).slots,
        s.endAt - s.startAt = sv.duration_minutes * msPerMinute ∧
        ∃ p ∈ effectivePeriods db D, s.endAt ≤ dayStart D + p.2 * msPerMinute) ∧
    (∀ res, getAvailableSlotsPg db now D serviceId staffId st = some res →
      ∀ s ∈ res.slots,
        s.endAt - s.startAt = sv.duration_minutes * msPerMinute ∧
        ∃ bh, findBusinessHours db (dayOfWeek D) = some bh ∧
          ∃ ct, bh.close_time = some ct ∧
            s.endAt ≤ dayStart D + ct * msPerMinute) := by
  constructor
  · intro s hs
    simp only [getAvailableSlots] at hs
    split at hs
    · simp at hs
    · split at hs
      · simp at hs
      · cases hho : findHoliday db D with
        | some hh =>
          rw [hho] at hs
          simp at hs
        | none =>
          rw [hho] at hs
          dsimp only at hs
          cases hp : pickException db.scheduleExceptions D with
          | none =>
            rw [hp] at hs
            dsimp only at hs
            have := slotsForDay_mem db now D serviceId staffId st none sv s hsv hs
            rwa [show effectivePeriods db D = periodsUnder db D none by
              unfold effectivePeriods; rw [hp]]
          | some e =>
            rw [hp] at hs
            dsimp only at hs
            by_cases hce : e.exception_type = .closed
            · rw [if_pos hce] at hs
              simp at hs
            · rw [if_neg hce] at hs
              have := slotsForDay_mem db now D serviceId staffId st (some e) sv s hsv hs
              rwa [show effectivePeriods db D = periodsUnder db D (some e) by
                unfold effectivePeriods; rw [hp]]
  · intro res hres s hs
    obtain ⟨bh, sv2, ot, ct, hfb, hsv2, hot, hct, hmem⟩ :=
      getAvailableSlotsPg_success db now D serviceId staffId st res hres s hs
    have hm := genLoopPg_mem _ _ _ _ _ _ _ _ _ _ _ _ _ _ _ hmem
    have hsveq : sv2 = sv := by
      rw [hsv] at hsv2
      injection hsv2 with h
      exact h.symm
    subst hsveq
    exact ⟨by omega, bh, hfb, ct, hct, hm.2.1⟩

theorem claim_C3_witness :
    (findService wDB 1 = some wSv) ∧
      (wSlot0 ∈ (getAvailableSlots wDB wNow wD 1 none wSet).slots) ∧
      (wSlot0.endAt - wSlot0.startAt = wSv.duration_minutes * msPerMinute ∧
        ∃ p ∈ effectivePeriods wDB wD,
          wSlot0.endAt ≤ dayStart wD + p.2 * msPerMinute) :=
  ⟨by decide, by decide,
    (claim_C3_slot_duration wDB wNow wD 1 none wSet wSv (by decide)).1 wSlot0
      (by decide)⟩

/-- C6: in the Scenario-F store (Monday 09:00 capacity 3, three unstaffed
confirmed 09:00–09:30 bookings) the generated 09:00 slot is unavailable
with count 3 against capacity 3 while the 09:30 slot is available; and in
general every slot the Postgres generator emits is available exactly when
the count of overlapping confirmed appointments (staff-filtered as
fetched) is strictly below the capacity resolved for the weekday, the
slot's time of day, and the date. -/
theorem claim_C6_capacity_counting :
    (pgSlotAvailAt (getAvailableSlotsPg pgDB wNow wD 1 none wSet)
        (dayStart wD + 540 * msPerMinute) = some false ∧
      pgSlotCountCapAt (getAvailableSlotsPg pgDB wNow wD 1 none wSet)
        (dayStart wD + 540 * msPerMinute) = some (3, 3) ∧
      pgSlotAvailAt (getAvailableSlotsPg pgDB wNow wD 1 none wSet)
        (dayStart wD + 570 * msPerMinute) = some true) ∧
    ∀ (db : DB) (now D serviceId : Int) (staffId : Option Int) (st : Settings)
      (res : SlotsPgResult),
      getAvailableSlotsPg db now D serviceId staffId st = some res →
      ∀ s ∈ res.slots,
        (s.available = true ↔
          countOverlaps (appointmentsOn db D staffId) staffId s.startAt s.endAt <
            getSlotCapacity db (dayOfWeek D) (timeMinOf s.startAt) st (some D)) := by
  constructor
  · exact ⟨by decide, by decide, by decide⟩
  · intro db now D serviceId staffId st res hres s hs
    obtain ⟨bh, sv, ot, ct, hfb, hsv, hot, hct, hmem⟩ :=
      getAvailableSlotsPg_success db now D serviceId staffId st res hres s hs
    have hm := genLoopPg_mem _ _ _ _ _ _ _ _ _ _ _ _ _ _ _ hmem
    rw [hm.2.2.2.2, hm.2.2.1, hm.2.2.2.1]
    exact decide_eq_true_iff

theorem claim_C6_witness :
    (getAvailableSlotsPg pgDB wNow wD 1 none wSet = some pgRes) ∧
      (pgSlot0 ∈ pgRes.slots) ∧
      (pgSlot0.available = true ↔
        countOverlaps (appointmentsOn pgDB wD none) none pgSlot0.startAt
            pgSlot0.endAt <
          getSlotCapacity pgDB (dayOfWeek wD) (timeMinOf pgSlot0.startAt) wSet
            (some wD)) :=
  ⟨by decide, by decide,
    claim_C6_capacity_counting.2 pgDB wNow wD 1 none wSet pgRes (by decide)
      pgSlot0 (by decide)⟩

/-- C5: `getSlotCapacity` resolves in the documented order — the
specific-date row when a date is given and such a row exists, else the
weekday row with no specific date, else
`parseInt(default_slot_capacity) || 1` (so an absent, non-numeric, or
zero setting falls back to 1) — and the result is an integer `≥ 1` given
the store invariants the repository enforces elsewhere: the schema's
`CHECK (capacity >= 1)` on `slot_capacities` rows and the admin
endpoint's rejection of `capacity < 1` before writing the
`default_slot_capacity` setting. -/
theorem claim_C5_capacity_resolution
    (db : DB) (st : Settings) (w t : Int) (date : Option Int)
    (hrows : ∀ r ∈ db.slotCapacities, 1 ≤ r.capacity)
    (hdflt : ∀ n, st.default_slot_capacity = some n → 1 ≤ n) :
    1 ≤ getSlotCapacity db w t st date ∧
      (∀ d r, date = some d → findSpecificCapacity db d t = some r →
        getSlotCapacity db w t st date = r.capacity) ∧
      (∀ r, (∀ d, date = some d → findSpecificCapacity db d t = none) →
        findWeekdayCapacity db w t = some r →
        getSlotCapacity db w t st date = r.capacity) ∧
      ((∀ d, date = some d → findSpecificCapacity db d t = none) →
        findWeekdayCapacity db w t = none →
        getSlotCapacity db w t st date = parseIntD st.default_slot_capacity 1) := by
  have hdefault : 1 ≤ parseIntD st.default_slot_capacity 1 := by
    cases hd : st.default_slot_capacity with
    | none => simp [parseIntD]
    | some n =>
      have h1 := hdflt n hd
      have hne : ¬ n = 0 := by omega
      simp only [parseIntD]
      rw [if_neg hne]
      exact h1
  have hday1 : 1 ≤ getSlotCapacityDay db w t st := by
    unfold getSlotCapacityDay
    cases hw : findWeekdayCapacity db w t with
    | some r =>
      exact hrows r (List.mem_of_find?_eq_some hw)
    | none => exact hdefault
  refine ⟨?_, ?_, ?_, ?_⟩
  · unfold getSlotCapacity
    cases date with
    | none => exact hday1
    | some d =>
      dsimp only
      cases hsp : findSpecificCapacity db d t with
      | some r =>
        dsimp only
        exact hrows r (List.mem_of_find?_eq_some hsp)
      | none =>
        dsimp only
        exact hday1
  · intro d r hd hsp
    subst hd
    unfold getSlotCapacity
    dsimp only
    rw [hsp]
  · intro r hspn hwk
    unfold getSlotCapacity
    cases date with
    | none =>
      dsimp only
      unfold getSlotCapacityDay
      rw [hwk]
    | some d =>
      dsimp only
      rw [hspn d rfl]
      dsimp only
      unfold getSlotCapacityDay
      rw [hwk]
  · intro hspn hwk
    unfold getSlotCapacity
    cases date with
    | none =>
      dsimp only
      unfold getSlotCapacityDay
      rw [hwk]
    | some d =>
      dsimp only
      rw [hspn d rfl]
      dsimp only
      unfold getSlotCapacityDay
      rw [hwk]

theorem claim_C5_witness :
    1 ≤ getSlotCapacity capDB 1 540 wSet (some 20003) ∧
      getSlotCapacity capDB 1 540 wSet (some 20003) = capSpecRow.capacity ∧
      getSlotCapacity capDB 1 540 wSet none = pgCapRow.capacity ∧
      getSlotCapacity capDB 1 600 wSet (some 20003) =
        parseIntD wSet.default_slot_capacity 1 :=
  ⟨(claim_C5_capacity_resolution capDB wSet 1 540 (some 20003) (by decide)
      (fun n h => Option.noConfusion h)).1,
    (claim_C5_capacity_resolution capDB wSet 1 540 (some 20003) (by decide)
      (fun n h => Option.noConfusion h)).2.1 20003 capSpecRow rfl (by decide),
    (claim_C5_capacity_resolution capDB wSet 1 540 none (by decide)
      (fun n h => Option.noConfusion h)).2.2.1 pgCapRow
      (fun d hd => Option.noConfusion hd) (by decide),
    (claim_C5_capacity_resolution capDB wSet 1 600 (some 20003) (by decide)
      (fun n h => Option.noConfusion h)).2.2.2
      (fun d hd => by injection hd with h; subst h; decide) (by decide)⟩

end Hiko
